import Mathlib

/-!
Verification development for the butter-lettuce supply-chain simulator.

The definitions below are a shallow embedding of the Python sources
(`PO.py`, `Firm.py`, `Simulation.py`, `Configs.py`).  Python integers are
modelled as `Int`, Python floats as `ℚ`, numpy arrays as total functions
`Int → Int` (resp. `Int → ℚ × ℚ`) updated pointwise, and code that can
raise as `Except String`.  `int(x)` (truncation toward zero) is modelled
by `pyTrunc` / `pyHalfInt`.
-/

namespace SupplyChain

/-- Python `int(q)` on a float value: truncation toward zero. -/
def pyTrunc (q : ℚ) : Int :=
  if 0 ≤ q then ((q.num.toNat / q.den : Nat) : Int)
  else -(((-q).num.toNat / (-q).den : Nat) : Int)

/-- Python `int(s / 2)` for an integer `s`: true division then truncation. -/
def pyHalfInt (s : Int) : Int :=
  if 0 ≤ s then ((s.toNat / 2 : Nat) : Int) else -(((-s).toNat / 2 : Nat) : Int)

/-- Pointwise array write, modelling `arr[i] = v` on a numpy array. -/
def writeArr (arr : Int → Int) (i v : Int) : Int → Int :=
  fun j => if j = i then v else arr j

/-- Sequencing of two fallible checks: the first `raise` wins (Python
control flow in a constructor body). -/
def seqE (x y : Except String Unit) : Except String Unit :=
  match x with
  | .error e => .error e
  | .ok _ => y

/-! ### PO.py -/

/-- A purchase order (`PO.py`).  The `-99` sentinels mirror the source. -/
structure PO where
  customer : Int
  supplier : Int
  orderAmt : Int
  orderTime : Int
  fulfilledAmt : Int
  fulfilledTime : Int
  arrivalTime : Int
  closed : Bool
  customerClosed : Bool
  supplierClosed : Bool
deriving DecidableEq

/-- `PO.__init__` (PO.py lines 62-97): the `closed` argument is stored as
given while both closure flags always start `False`. -/
def PO.init (customer supplier orderAmt orderTime : Int) (closed : Bool) : PO :=
  { customer := customer, supplier := supplier, orderAmt := orderAmt,
    orderTime := orderTime, fulfilledAmt := -99, fulfilledTime := -99,
    arrivalTime := -99, closed := closed, customerClosed := false,
    supplierClosed := false }

/-- `PO.closePO` (PO.py lines 152-171): sets `closed` iff both flags are
set; the returned `Bool` is the Python return value. -/
def PO.closePO (po : PO) : PO × Bool :=
  if po.supplierClosed && po.customerClosed then ({ po with closed := true }, true)
  else (po, false)

/-- `PO.updatePO` (PO.py lines 173-201): each field present in `params` is
assigned; there is no validation of any kind. -/
def PO.updatePO (po : PO) (fulfilledAmt fulfilledTime arrivalTime : Option Int) : PO :=
  let po := match fulfilledAmt with
    | some a => { po with fulfilledAmt := a }
    | none => po
  let po := match fulfilledTime with
    | some t => { po with fulfilledTime := t }
    | none => po
  match arrivalTime with
  | some a => { po with arrivalTime := a }
  | none => po

/-- The mutations the program ever performs on a PO after construction:
`po.supplierClosed = True` (Firm.py 865, 1020, 1898, Simulation.py 323,
340), `po.customerClosed = True` (Firm.py 943, Simulation.py 663),
`po.closePO(time)` and `po.updatePO(params)`. -/
inductive POOp where
  | markSupplierClosed : POOp
  | markCustomerClosed : POOp
  | close : POOp
  | update (fulfilledAmt fulfilledTime arrivalTime : Option Int) : POOp

def POOp.apply (po : PO) : POOp → PO
  | .markSupplierClosed => { po with supplierClosed := true }
  | .markCustomerClosed => { po with customerClosed := true }
  | .close => (po.closePO).1
  | .update a t arr => po.updatePO a t arr

/-- A PO after a sequence of program operations. -/
def runOps (po : PO) (ops : List POOp) : PO :=
  ops.foldl POOp.apply po

/-- The invariant `closed ⇒ supplierClosed ∧ customerClosed`. -/
def closedImpliesFlags (po : PO) : Prop :=
  po.closed = true → po.supplierClosed = true ∧ po.customerClosed = true

/-- `Simulation.cleanActivePoList` (Simulation.py lines 667-691): calls
`closePO` on every active PO, appends those for which it returned `True`
to the closed list, then drops every `closed` PO from the active list. -/
def cleanActivePoList (activePoList closedPoList : List PO) : List PO × List PO :=
  let swept := activePoList.map PO.closePO
  let closedPoList := closedPoList ++ (swept.filter (fun pr => pr.2)).map Prod.fst
  let activePoList := (swept.map Prod.fst).filter (fun po => !po.closed)
  (activePoList, closedPoList)

/-! ### Firm.py: the production phase -/

/-- The two inventories `production` touches. -/
structure Inventory where
  wip : Int
  fg : Int
deriving DecidableEq

/-- `Firm.createProductionOrder` (Firm.py lines 692-715): total of queued
order amounts, capped at the WIP inventory, rejected when negative. -/
def createProductionOrder (queue : List PO) (wip : Int) : Except String Int :=
  let productionAmount := (queue.map PO.orderAmt).sum
  let productionAmount := if productionAmount > wip then wip else productionAmount
  if productionAmount < 0 then .error "Production order cannot be less than 0"
  else .ok productionAmount

/-- `Firm.makeProduct` (Firm.py lines 825-843): records fulfillment on the
PO and converts WIP into FG one for one. -/
def makeProduct (inv : Inventory) (po : PO) (amount timePeriod : Int) : Inventory × PO :=
  ({ wip := inv.wip - amount, fg := inv.fg + amount },
   po.updatePO (some amount) (some timePeriod) none)

/-- The loop body of `Firm.production` (Firm.py lines 856-883), walking an
already-shuffled queue.  Returns the final `leftToProduce`, the final
inventories and the processed POs (the same objects, mutated, in queue
order; they are also all appended to the shipping queue in the source). -/
def productionLoop (timePeriod : Int) :
    Int → Inventory → List PO → Except String (Int × Inventory × List PO)
  | leftToProduce, inv, [] => .ok (leftToProduce, inv, [])
  | leftToProduce, inv, po :: rest =>
    if leftToProduce < 0 then .error "leftToProduce value is less than 0"
    else
      let po1 : PO := { po with supplierClosed := true }
      if leftToProduce = 0 then
        let po2 := po1.updatePO (some 0) (some timePeriod) none
        match productionLoop timePeriod leftToProduce inv rest with
        | .ok (l, inv2, pos) => .ok (l, inv2, po2 :: pos)
        | .error e => .error e
      else if po1.orderAmt ≤ leftToProduce then
        match makeProduct inv po1 po1.orderAmt timePeriod with
        | (inv1, po2) =>
          match productionLoop timePeriod (leftToProduce - po1.orderAmt) inv1 rest with
          | .ok (l, inv2, pos) => .ok (l, inv2, po2 :: pos)
          | .error e => .error e
      else
        match makeProduct inv po1 leftToProduce timePeriod with
        | (inv1, po2) =>
          match productionLoop timePeriod 0 inv1 rest with
          | .ok (l, inv2, pos) => .ok (l, inv2, po2 :: pos)
          | .error e => .error e

/-- The whole production phase of one period: `createProductionOrder`
(called from `receiveCustomerDemand`, with the WIP inventory unchanged in
between) followed by the `production` loop. -/
def productionPhase (timePeriod : Int) (inv : Inventory) (queue : List PO) :
    Except String (Int × Inventory × List PO) :=
  match createProductionOrder queue inv.wip with
  | .error e => .error e
  | .ok p => productionLoop timePeriod p inv queue

/-- `Firm.endOfDay` (Firm.py lines 749-753): `wipMaterialsUsed`, written
to ledger column 4 (`wip_used_in_production`). -/
def endOfDayWipUsed (queue : List PO) : Int :=
  (queue.map PO.fulfilledAmt).sum

/-- `Firm.endOfDay` (Firm.py line 754): the same total written to ledger
column 10 (`total_fg_produced`). -/
def endOfDayFgProduced (queue : List PO) : Int :=
  (queue.map PO.fulfilledAmt).sum

/-- `Firm.endOfDay` (Firm.py line 756): the production queue keeps only
POs not closed by the supplier. -/
def endOfDayClearQueue (queue : List PO) : List PO :=
  queue.filter (fun po => !po.supplierClosed)

/-- The amounts fulfilled along the production walk, as a pure function of
the budget and the queued order amounts (mirrors the three branches of
the loop). -/
def walkFulfil : Int → List Int → List Int
  | _, [] => []
  | b, a :: as =>
    if b = 0 then 0 :: walkFulfil b as
    else if a ≤ b then a :: walkFulfil (b - a) as
    else b :: walkFulfil 0 as

lemma walkFulfil_cons_zero (a : Int) (as : List Int) :
    walkFulfil 0 (a :: as) = 0 :: walkFulfil 0 as := rfl

lemma walkFulfil_cons_of_le {b a : Int} (hbz : ¬b = 0) (hab : a ≤ b) (as : List Int) :
    walkFulfil b (a :: as) = a :: walkFulfil (b - a) as := by
  simp only [walkFulfil]
  rw [if_neg hbz, if_pos hab]

lemma walkFulfil_cons_of_gt {b a : Int} (hbz : ¬b = 0) (hab : ¬a ≤ b) (as : List Int) :
    walkFulfil b (a :: as) = b :: walkFulfil 0 as := by
  simp only [walkFulfil]
  rw [if_neg hbz, if_neg hab]

lemma walkFulfil_length (as : List Int) : ∀ b : Int, (walkFulfil b as).length = as.length := by
  induction as with
  | nil => intro b; simp [walkFulfil]
  | cons a as ih =>
    intro b
    by_cases hb : b = 0
    · subst hb; rw [walkFulfil_cons_zero]; simp [ih]
    · by_cases hab : a ≤ b
      · rw [walkFulfil_cons_of_le hb hab]; simp [ih]
      · rw [walkFulfil_cons_of_gt hb hab]; simp [ih]

lemma walkFulfil_sum_min (as : List Int) : ∀ b : Int, 0 ≤ b → (∀ a ∈ as, 0 ≤ a) →
    (walkFulfil b as).sum = min as.sum b := by
  induction as with
  | nil =>
    intro b hb _
    simp only [walkFulfil, List.sum_nil]
    rw [min_def]
    split_ifs <;> omega
  | cons a as ih =>
    intro b hb ha
    have ha0 : 0 ≤ a := ha a (List.mem_cons_self a as)
    have has : ∀ x ∈ as, 0 ≤ x := fun x hx => ha x (List.mem_cons_of_mem a hx)
    have hsum : 0 ≤ as.sum := List.sum_nonneg has
    by_cases hbz : b = 0
    · subst hbz
      have := ih 0 le_rfl has
      rw [walkFulfil_cons_zero, List.sum_cons, List.sum_cons, this]
      rw [min_def, min_def]
      split_ifs <;> omega
    · by_cases hab : a ≤ b
      · have := ih (b - a) (by omega) has
        rw [walkFulfil_cons_of_le hbz hab, List.sum_cons, List.sum_cons, this]
        rw [min_def, min_def]
        split_ifs <;> omega
      · have := ih 0 le_rfl has
        rw [walkFulfil_cons_of_gt hbz hab, List.sum_cons, List.sum_cons, this]
        rw [min_def, min_def]
        split_ifs <;> omega

lemma walkFulfil_getD (as : List Int) : ∀ (b : Int) (i : Nat), 0 ≤ b → (∀ a ∈ as, 0 ≤ a) →
    i < as.length →
    (as.getD i 0 ≤ b - ((walkFulfil b as).take i).sum →
      (walkFulfil b as).getD i 0 = as.getD i 0) ∧
    (b - ((walkFulfil b as).take i).sum < as.getD i 0 →
      (walkFulfil b as).getD i 0 = b - ((walkFulfil b as).take i).sum) := by
  induction as with
  | nil => intro b i _ _ hi; simp at hi
  | cons a as ih =>
    intro b i hb ha hi
    have ha0 : 0 ≤ a := ha a (List.mem_cons_self a as)
    have has : ∀ x ∈ as, 0 ≤ x := fun x hx => ha x (List.mem_cons_of_mem a hx)
    by_cases hbz : b = 0
    · subst hbz
      match i with
      | 0 =>
        rw [walkFulfil_cons_zero]
        simp only [List.getD_cons_zero, List.take_zero, List.sum_nil]
        omega
      | i + 1 =>
        obtain ⟨h1, h2⟩ := ih 0 i le_rfl has (by simpa using hi)
        rw [walkFulfil_cons_zero]
        simp only [List.getD_cons_succ, List.take_succ_cons, List.sum_cons]
        constructor
        · intro h; exact h1 (by omega)
        · intro h; rw [h2 (by omega)]; omega
    · by_cases hab : a ≤ b
      · match i with
        | 0 =>
          rw [walkFulfil_cons_of_le hbz hab]
          simp only [List.getD_cons_zero, List.take_zero, List.sum_nil]
          exact ⟨fun _ => trivial, fun h => by omega⟩
        | i + 1 =>
          obtain ⟨h1, h2⟩ := ih (b - a) i (by omega) has (by simpa using hi)
          rw [walkFulfil_cons_of_le hbz hab]
          simp only [List.getD_cons_succ, List.take_succ_cons, List.sum_cons]
          constructor
          · intro h; exact h1 (by omega)
          · intro h; rw [h2 (by omega)]; omega
      · match i with
        | 0 =>
          rw [walkFulfil_cons_of_gt hbz hab]
          simp only [List.getD_cons_zero, List.take_zero, List.sum_nil]
          omega
        | i + 1 =>
          obtain ⟨h1, h2⟩ := ih 0 i le_rfl has (by simpa using hi)
          rw [walkFulfil_cons_of_gt hbz hab]
          simp only [List.getD_cons_succ, List.take_succ_cons, List.sum_cons]
          constructor
          · intro h; exact h1 (by omega)
          · intro h; rw [h2 (by omega)]; omega

/-- The production loop never raises on a nonnegative budget, and its
result is exactly the `walkFulfil` walk applied to the queue. -/
lemma productionLoop_eq (t : Int) (q : List PO) : ∀ (b : Int) (inv : Inventory), 0 ≤ b →
    productionLoop t b inv q =
      .ok (b - (walkFulfil b (q.map PO.orderAmt)).sum,
           { wip := inv.wip - (walkFulfil b (q.map PO.orderAmt)).sum,
             fg := inv.fg + (walkFulfil b (q.map PO.orderAmt)).sum },
           List.zipWith
             (fun po f =>
               { po with supplierClosed := true, fulfilledAmt := f, fulfilledTime := t })
             q (walkFulfil b (q.map PO.orderAmt))) := by
  induction q with
  | nil => intro b inv hb; simp [productionLoop, walkFulfil]
  | cons po rest ih =>
    intro b inv hb
    by_cases hbz : b = 0
    · subst hbz
      simp only [productionLoop, if_neg (show ¬((0 : Int) < 0) by omega), if_pos rfl]
      rw [ih 0 inv le_rfl]
      rw [List.map_cons, walkFulfil_cons_zero]
      simp only [List.sum_cons, List.zipWith_cons_cons, Except.ok.injEq, Prod.mk.injEq,
        List.cons.injEq, Inventory.mk.injEq]
      repeat' apply And.intro
      all_goals first
        | omega
        | (simp [PO.updatePO])
        | rfl
    · by_cases hab : po.orderAmt ≤ b
      · simp only [productionLoop, if_neg (show ¬(b < 0) by omega), if_neg hbz,
          makeProduct]
        rw [if_pos (show ({ po with supplierClosed := true } : PO).orderAmt ≤ b from hab)]
        rw [ih (b - ({ po with supplierClosed := true } : PO).orderAmt) _
          (show (0 : Int) ≤ b - po.orderAmt by omega)]
        rw [List.map_cons, walkFulfil_cons_of_le hbz hab]
        simp only [List.sum_cons, List.zipWith_cons_cons, Except.ok.injEq, Prod.mk.injEq,
          List.cons.injEq, Inventory.mk.injEq]
        repeat' apply And.intro
        all_goals first
          | omega
          | (simp [PO.updatePO])
          | rfl
      · simp only [productionLoop, if_neg (show ¬(b < 0) by omega), if_neg hbz,
          makeProduct]
        rw [if_neg (show ¬(({ po with supplierClosed := true } : PO).orderAmt ≤ b) from hab)]
        rw [ih 0 _ le_rfl]
        rw [List.map_cons, walkFulfil_cons_of_gt hbz hab]
        simp only [List.sum_cons, List.zipWith_cons_cons, Except.ok.injEq, Prod.mk.injEq,
          List.cons.injEq, Inventory.mk.injEq]
        repeat' apply And.intro
        all_goals first
          | omega
          | (simp [PO.updatePO])
          | rfl

lemma createProductionOrder_ok (q : List PO) (wip : Int)
    (hq : ∀ po ∈ q, 0 ≤ po.orderAmt) (hw : 0 ≤ wip) :
    createProductionOrder q wip = .ok (min ((q.map PO.orderAmt).sum) wip) := by
  have hs : 0 ≤ (q.map PO.orderAmt).sum := by
    refine List.sum_nonneg ?_
    intro a ha
    obtain ⟨po, hpo, rfl⟩ := List.mem_map.1 ha
    exact hq po hpo
  simp only [createProductionOrder, min_def]
  split_ifs <;> first | omega | simp only [Except.ok.injEq] <;> omega

lemma zipWith_map_fulfilledAmt (t : Int) :
    ∀ (q : List PO) (w : List Int), w.length = q.length →
    (List.zipWith
      (fun po f =>
        { po with supplierClosed := true, fulfilledAmt := f, fulfilledTime := t }) q w).map
        PO.fulfilledAmt = w := by
  intro q
  induction q with
  | nil => intro w hw; simp at hw; simp [hw]
  | cons po rest ih =>
    intro w hw
    match w with
    | [] => simp at hw
    | f :: fs =>
      simp only [List.zipWith_cons_cons, List.map_cons]
      rw [ih fs (by simpa using hw)]

lemma zipWith_supplierClosed (t : Int) :
    ∀ (q : List PO) (w : List Int),
    ∀ po ∈ List.zipWith
      (fun po f =>
        { po with supplierClosed := true, fulfilledAmt := f, fulfilledTime := t }) q w,
      po.supplierClosed = true := by
  intro q
  induction q with
  | nil => intro w po hpo; simp at hpo
  | cons p rest ih =>
    intro w po hpo
    match w with
    | [] => simp at hpo
    | f :: fs =>
      simp only [List.zipWith_cons_cons, List.mem_cons] at hpo
      rcases hpo with h | h
      · subst h; rfl
      · exact ih fs po h

lemma clearQueue_of_all_closed (outs : List PO)
    (h : ∀ po ∈ outs, po.supplierClosed = true) : endOfDayClearQueue outs = [] := by
  simp only [endOfDayClearQueue, List.filter_eq_nil_iff]
  intro po hpo
  simp [h po hpo]

/-- **C1.** For every firm and period: with a nonnegative starting WIP and
nonnegative queued order amounts (the only states the program produces),
the production phase succeeds, produces in total
`min(sum of queued order amounts, wipInventory)`, walks the (already
shuffled) queue so that an order whose amount fits in the remaining budget
is fulfilled in full and an order that does not fit receives exactly the
remaining budget (hence the first short order gets the leftover and all
later orders get 0), marks every queued PO `supplierClosed`, and the
end-of-day queue sweep then clears the whole queue, so no shortfall is
carried to the next period. -/
theorem production_walks_queue (t : Int) (inv : Inventory) (q : List PO)
    (hq : ∀ po ∈ q, 0 ≤ po.orderAmt) (hw : 0 ≤ inv.wip) :
    ∃ l inv2 outs, productionPhase t inv q = .ok (l, inv2, outs) ∧
      outs.length = q.length ∧
      (outs.map PO.fulfilledAmt).sum = min ((q.map PO.orderAmt).sum) inv.wip ∧
      (∀ i : Nat, i < q.length →
        ((q.map PO.orderAmt).getD i 0 ≤
            min ((q.map PO.orderAmt).sum) inv.wip - ((outs.map PO.fulfilledAmt).take i).sum →
          (outs.map PO.fulfilledAmt).getD i 0 = (q.map PO.orderAmt).getD i 0) ∧
        (min ((q.map PO.orderAmt).sum) inv.wip - ((outs.map PO.fulfilledAmt).take i).sum <
            (q.map PO.orderAmt).getD i 0 →
          (outs.map PO.fulfilledAmt).getD i 0 =
            min ((q.map PO.orderAmt).sum) inv.wip -
              ((outs.map PO.fulfilledAmt).take i).sum)) ∧
      (∀ po ∈ outs, po.supplierClosed = true) ∧
      endOfDayClearQueue outs = [] := by
  have hamts : ∀ a ∈ q.map PO.orderAmt, 0 ≤ a := by
    intro a ha
    obtain ⟨po, hpo, rfl⟩ := List.mem_map.1 ha
    exact hq po hpo
  have hB : 0 ≤ min ((q.map PO.orderAmt).sum) inv.wip := by
    have := List.sum_nonneg hamts
    rw [min_def]; split_ifs <;> omega
  have hphase : productionPhase t inv q =
      productionLoop t (min ((q.map PO.orderAmt).sum) inv.wip) inv q := by
    simp only [productionPhase, createProductionOrder_ok q inv.wip hq hw]
  have hloop := productionLoop_eq t q (min ((q.map PO.orderAmt).sum) inv.wip) inv hB
  have hwlen : (walkFulfil (min ((q.map PO.orderAmt).sum) inv.wip) (q.map PO.orderAmt)).length
      = q.length := by
    rw [walkFulfil_length]; simp
  have hmap := zipWith_map_fulfilledAmt t q
    (walkFulfil (min ((q.map PO.orderAmt).sum) inv.wip) (q.map PO.orderAmt)) hwlen
  refine ⟨_, _, _, hphase.trans hloop, ?_, ?_, ?_, ?_, ?_⟩
  · rw [List.length_zipWith, hwlen]; omega
  · rw [hmap, walkFulfil_sum_min (q.map PO.orderAmt) _ hB hamts]
    simp only [min_def]
    split_ifs <;> omega
  · intro i hi
    rw [hmap]
    exact walkFulfil_getD (q.map PO.orderAmt) _ i hB hamts (by simpa using hi)
  · exact zipWith_supplierClosed t q _
  · exact clearQueue_of_all_closed _ (zipWith_supplierClosed t q _)

def demoPoA : PO := PO.init 4 1 2 0 false

def demoPoB : PO := PO.init 5 1 5 0 false

def demoInv : Inventory := { wip := 3, fg := 0 }

/-- Witness for C1: the theorem applied to a concrete two-order queue with
scarce WIP. -/
theorem production_walks_queue_witness :
    ∃ l inv2 outs, productionPhase 0 demoInv [demoPoA, demoPoB] = .ok (l, inv2, outs) ∧
      outs.length = [demoPoA, demoPoB].length ∧
      (outs.map PO.fulfilledAmt).sum =
        min (([demoPoA, demoPoB].map PO.orderAmt).sum) demoInv.wip ∧
      (∀ i : Nat, i < [demoPoA, demoPoB].length →
        (([demoPoA, demoPoB].map PO.orderAmt).getD i 0 ≤
            min (([demoPoA, demoPoB].map PO.orderAmt).sum) demoInv.wip -
              ((outs.map PO.fulfilledAmt).take i).sum →
          (outs.map PO.fulfilledAmt).getD i 0 =
            ([demoPoA, demoPoB].map PO.orderAmt).getD i 0) ∧
        (min (([demoPoA, demoPoB].map PO.orderAmt).sum) demoInv.wip -
            ((outs.map PO.fulfilledAmt).take i).sum <
            ([demoPoA, demoPoB].map PO.orderAmt).getD i 0 →
          (outs.map PO.fulfilledAmt).getD i 0 =
            min (([demoPoA, demoPoB].map PO.orderAmt).sum) demoInv.wip -
              ((outs.map PO.fulfilledAmt).take i).sum)) ∧
      (∀ po ∈ outs, po.supplierClosed = true) ∧
      endOfDayClearQueue outs = [] :=
  production_walks_queue 0 demoInv [demoPoA, demoPoB] (by decide) (by decide)

/-- **C6.** The production phase converts WIP into FG one for one: the
decrease of `wipInventory` equals the increase of `fgInventory`, both
equal the sum of the fulfilled amounts of the processed POs, and the
`endOfDay` ledger entries `wip_used_in_production` (column 4) and
`total_fg_produced` (column 10) both record that same sum. -/
theorem production_conserves_wip_fg (t : Int) (inv : Inventory) (q : List PO)
    (hq : ∀ po ∈ q, 0 ≤ po.orderAmt) (hw : 0 ≤ inv.wip) :
    ∃ l inv2 outs, productionPhase t inv q = .ok (l, inv2, outs) ∧
      inv.wip - inv2.wip = inv2.fg - inv.fg ∧
      inv.wip - inv2.wip = (outs.map PO.fulfilledAmt).sum ∧
      endOfDayWipUsed outs = endOfDayFgProduced outs ∧
      endOfDayWipUsed outs = (outs.map PO.fulfilledAmt).sum := by
  have hamts : ∀ a ∈ q.map PO.orderAmt, 0 ≤ a := by
    intro a ha
    obtain ⟨po, hpo, rfl⟩ := List.mem_map.1 ha
    exact hq po hpo
  have hB : 0 ≤ min ((q.map PO.orderAmt).sum) inv.wip := by
    have := List.sum_nonneg hamts
    rw [min_def]; split_ifs <;> omega
  have hphase : productionPhase t inv q =
      productionLoop t (min ((q.map PO.orderAmt).sum) inv.wip) inv q := by
    simp only [productionPhase, createProductionOrder_ok q inv.wip hq hw]
  have hloop := productionLoop_eq t q (min ((q.map PO.orderAmt).sum) inv.wip) inv hB
  have hwlen : (walkFulfil (min ((q.map PO.orderAmt).sum) inv.wip) (q.map PO.orderAmt)).length
      = q.length := by
    rw [walkFulfil_length]; simp
  have hmap := zipWith_map_fulfilledAmt t q
    (walkFulfil (min ((q.map PO.orderAmt).sum) inv.wip) (q.map PO.orderAmt)) hwlen
  refine ⟨_, _, _, hphase.trans hloop, by simp, by rw [hmap]; simp, ?_, ?_⟩
  · rfl
  · rw [endOfDayWipUsed, hmap]

/-- Witness for C6: the conservation theorem at the same concrete queue. -/
theorem production_conserves_wip_fg_witness :
    ∃ l inv2 outs, productionPhase 0 demoInv [demoPoA, demoPoB] = .ok (l, inv2, outs) ∧
      demoInv.wip - inv2.wip = inv2.fg - demoInv.fg ∧
      demoInv.wip - inv2.wip = (outs.map PO.fulfilledAmt).sum ∧
      endOfDayWipUsed outs = endOfDayFgProduced outs ∧
      endOfDayWipUsed outs = (outs.map PO.fulfilledAmt).sum :=
  production_conserves_wip_fg 0 demoInv [demoPoA, demoPoB] (by decide) (by decide)

/-! ### C2: the closed-flag invariant and the registry sweep -/

lemma closedImpliesFlags_apply (po : PO) (op : POOp) (h : closedImpliesFlags po) :
    closedImpliesFlags (POOp.apply po op) := by
  cases op with
  | markSupplierClosed =>
    intro hc
    exact ⟨rfl, (h hc).2⟩
  | markCustomerClosed =>
    intro hc
    exact ⟨(h hc).1, rfl⟩
  | close =>
    intro hc
    simp only [POOp.apply, PO.closePO] at hc ⊢
    by_cases hb : po.supplierClosed && po.customerClosed
    · obtain ⟨h1, h2⟩ := (Bool.and_eq_true _ _).mp hb
      simp [hb, h1, h2]
    · simp only [if_neg hb] at hc ⊢
      exact h hc
  | update a t arr =>
    intro hc
    cases a <;> cases t <;> cases arr <;>
      simp only [POOp.apply, PO.updatePO] at hc ⊢ <;> exact h hc

lemma runOps_invariant (ops : List POOp) : ∀ po : PO, closedImpliesFlags po →
    closedImpliesFlags (runOps po ops) := by
  induction ops with
  | nil => intro po h; simpa [runOps] using h
  | cons op rest ih =>
    intro po h
    rw [runOps, List.foldl_cons]
    exact ih _ (closedImpliesFlags_apply po op h)

lemma clean_active_no_flags (active closedL : List PO) :
    ∀ po ∈ (cleanActivePoList active closedL).1, po.closed = false ∧
      ¬(po.supplierClosed = true ∧ po.customerClosed = true) := by
  intro po hpo
  simp only [cleanActivePoList, List.mem_filter, List.map_map, List.mem_map,
    Function.comp_apply, Bool.not_eq_eq_eq_not, Bool.not_true] at hpo
  obtain ⟨⟨p, hp, rfl⟩, hcl⟩ := hpo
  refine ⟨hcl, ?_⟩
  by_cases hb : p.supplierClosed && p.customerClosed
  · simp only [PO.closePO, if_pos hb] at hcl
    simp at hcl
  · simp only [PO.closePO, if_neg hb]
    intro hcontra
    exact hb (by simp [hcontra.1, hcontra.2])

/-- Counterexample for C2 as stated: the constructor accepts `closed=True`
and then produces a PO with `closed` set but neither closure flag set. -/
theorem po_init_closed_without_flags :
    (PO.init 0 1 5 0 true).closed = true ∧
    (PO.init 0 1 5 0 true).supplierClosed = false ∧
    (PO.init 0 1 5 0 true).customerClosed = false := by decide

/-- **C2 (amended).** For every PO constructed with `closed = false` (the
only way the program ever constructs one), every state reachable under
the operations the program performs satisfies
`closed → supplierClosed ∧ customerClosed`; and `cleanActivePoList`
closes and moves every active PO whose two flags are set, so that after a
sweep no PO left on the active list is closed or has both flags set. -/
theorem po_closed_invariant_and_sweep :
    (∀ (c s a t : Int) (ops : List POOp),
      closedImpliesFlags (runOps (PO.init c s a t false) ops)) ∧
    (∀ active closedL : List PO, ∀ po ∈ (cleanActivePoList active closedL).1,
      po.closed = false ∧ ¬(po.supplierClosed = true ∧ po.customerClosed = true)) ∧
    (∀ active closedL : List PO, ∀ po ∈ active,
      po.supplierClosed = true → po.customerClosed = true →
      ({ po with closed := true }) ∈ (cleanActivePoList active closedL).2 ∧
      ({ po with closed := true }) ∉ (cleanActivePoList active closedL).1) := by
  refine ⟨?_, clean_active_no_flags, ?_⟩
  · intro c s a t ops
    refine runOps_invariant ops _ ?_
    intro hc
    simp [PO.init] at hc
  · intro active closedL po hmem hs hc
    constructor
    · simp only [cleanActivePoList, List.mem_append]
      right
      refine List.mem_map.2 ⟨({ po with closed := true }, true), ?_, rfl⟩
      refine List.mem_filter.2 ⟨?_, rfl⟩
      refine List.mem_map.2 ⟨po, hmem, ?_⟩
      simp [PO.closePO, hs, hc]
    · intro hin
      have h := clean_active_no_flags active closedL _ hin
      simp at h

def c2Po : PO :=
  { PO.init 6 1 4 0 false with supplierClosed := true, customerClosed := true }

/-- Witness for C2: the amended theorem applied to a concrete operation
sequence and a concrete one-element registry. -/
theorem po_closed_invariant_and_sweep_witness :
    closedImpliesFlags (runOps (PO.init 0 1 5 0 false)
      [POOp.markSupplierClosed, POOp.markCustomerClosed, POOp.close]) ∧
    (({ c2Po with closed := true }) ∈ (cleanActivePoList [c2Po] []).2 ∧
     ({ c2Po with closed := true }) ∉ (cleanActivePoList [c2Po] []).1) :=
  ⟨po_closed_invariant_and_sweep.1 0 1 5 0
      [POOp.markSupplierClosed, POOp.markCustomerClosed, POOp.close],
   po_closed_invariant_and_sweep.2.2 [c2Po] [] c2Po (by decide) (by decide) (by decide)⟩

/-! ### C5: updatePO performs no validation -/

def c5Po : PO := PO.init 7 1 5 0 false

/-- Counterexample for C5 as stated: recording a fulfillment of 10 against
an order of 5 does not fail and does not leave the PO unchanged — the
over-large amount is stored. -/
theorem updatePO_accepts_overfulfillment :
    (c5Po.updatePO (some 10) (some 3) none).fulfilledAmt = 10 ∧
    c5Po.orderAmt = 5 ∧
    c5Po.updatePO (some 10) (some 3) none ≠ c5Po := by decide

/-- **C5 (amended).** `updatePO` performs no validation whatsoever: for
every fulfillment amount, including amounts strictly greater than
`orderAmt`, it stores the amount and time and never raises; all other
fields are left unchanged. -/
theorem updatePO_no_validation (po : PO) (a t : Int) :
    (po.updatePO (some a) (some t) none).fulfilledAmt = a ∧
    (po.updatePO (some a) (some t) none).fulfilledTime = t ∧
    (po.updatePO (some a) (some t) none).orderAmt = po.orderAmt ∧
    (po.updatePO (some a) (some t) none).arrivalTime = po.arrivalTime ∧
    (po.updatePO (some a) (some t) none).closed = po.closed ∧
    (po.updatePO (some a) (some t) none).supplierClosed = po.supplierClosed ∧
    (po.updatePO (some a) (some t) none).customerClosed = po.customerClosed :=
  ⟨rfl, rfl, rfl, rfl, rfl, rfl, rfl⟩

/-! ### C3: the supply-order calculation (Firm.py lines 576-635) -/

/-- `Firm.calculateSalesDuringDelay` (Firm.py lines 576-590): sums
`shipDelay - 1` entries of `demandForecastArray`, starting at index
`timePeriod + shipDelay` — note: `timePeriod`, the run-period counter,
not `timeIndex = historyTime + timePeriod`, the index every other access
to this array uses. -/
def calculateSalesDuringDelay (forecast : Int → Int) (timePeriod shipDelay : Int) : Int :=
  ((List.range (shipDelay - 1).toNat).map
    (fun k => forecast (timePeriod + shipDelay + k))).sum

/-- `Firm.calculateSupplyInTransit` (Firm.py lines 592-611). -/
def calculateSupplyInTransit (poList : List PO) (timePeriod : Int) : Int :=
  ((poList.filter (fun po => po.arrivalTime > timePeriod && !po.customerClosed)).map
    PO.fulfilledAmt).sum

/-- `Firm.calculateSupplyOrder` (Firm.py lines 613-635). -/
def calculateSupplyOrder (forecast : Int → Int) (poList : List PO)
    (desiredWipInventory wipInventory timePeriod shipDelay : Int) : Int :=
  max 0 (desiredWipInventory + calculateSalesDuringDelay forecast timePeriod shipDelay -
    calculateSupplyInTransit poList timePeriod - wipInventory)

/-- Modelled from the spec: `expectedSalesDuringShipDelay` "sums forecast
over the `(shipDelay−1)` periods the next order will be in transit".  An
order placed in period `t` (array slot `timeIndex`) arrives in period
`t + shipDelay`, so the transit sales periods are `t+1 … t+shipDelay-1`,
i.e. forecast-array slots `timeIndex+1 … timeIndex+shipDelay-1`. -/
def expectedSalesDuringShipDelaySpec (forecast : Int → Int) (timeIndex shipDelay : Int) : Int :=
  ((List.range (shipDelay - 1).toNat).map
    (fun k => forecast (timeIndex + 1 + k))).sum

/-- A forecast array for a firm with `historyTime = 10`: the warm-up slots
(indices < 10) hold 100, the run slots hold 50. -/
def c3Forecast : Int → Int := fun i => if i < 10 then 100 else 50

/-- **C3.** At `timePeriod = 0` with `historyTime = 10` and
`shipDelay = 2` the code sums forecast slot 2 — a warm-up slot, not a
future period — yielding 100, whereas the forecast over the transit
period (slot 11) is 50.  `calculateSalesDuringDelay` indexes the
forecast array with `timePeriod` where every other access uses
`timeIndex`, contradicting its own log message ("adding up … future time
periods"). -/
theorem salesDuringDelay_reads_history_slots :
    calculateSalesDuringDelay c3Forecast 0 2 = 100 ∧
    expectedSalesDuringShipDelaySpec c3Forecast 10 2 = 50 ∧
    calculateSalesDuringDelay c3Forecast 0 2 ≠
      expectedSalesDuringShipDelaySpec c3Forecast 10 2 := by decide

/-! ### C4: updateForecast (Firm.py lines 533-564 and 1152-1182) -/

/-- The slice of firm state touched by `updateDemandForecast`.  `arrLen`
is `len(demandForecastArray) = totalTime + shipDelay`. -/
structure ForecastSt where
  timeIndex : Int
  shipDelay : Int
  arrLen : Int
  alpha : ℚ
  actualizedDemand : Int → Int
  demandForecast : Int → Int
  desiredWip : Int

/-- `Firm.calculateFutureDemand` (Firm.py lines 533-564): smoothing 1
returns the period's actual demand; smoothing 2 returns
`int((actual + forecast) / 2)` — Python `int()` truncation, not
rounding; any other value raises. -/
def calculateFutureDemand (st : ForecastSt) (smoothingValue : Int) : Except String Int :=
  if smoothingValue = 1 then .ok (st.actualizedDemand st.timeIndex)
  else if smoothingValue = 2 then
    .ok (pyHalfInt (st.actualizedDemand st.timeIndex + st.demandForecast st.timeIndex))
  else .error "Smoothing value chosen is not recognized"

/-- `Firm.updateDemandForecast` (Firm.py lines 1152-1182): computes the
new forecast, updates `desiredWipInventory = int(newDemand * (1+alpha))`,
and writes the new forecast into array slots
`timeIndex+1 … endTime-1` where
`endTime = min(timeIndex + shipDelay + 1, len(array))`. -/
def updateDemandForecast (st : ForecastSt) (smoothingValue : Int) : Except String ForecastSt :=
  match calculateFutureDemand st smoothingValue with
  | .error e => .error e
  | .ok newDemand =>
    let desired := pyTrunc ((newDemand : ℚ) * (1 + st.alpha))
    let endTime := if st.timeIndex + st.shipDelay + 1 ≥ st.arrLen then st.arrLen
      else st.timeIndex + st.shipDelay + 1
    .ok { st with
      demandForecast :=
        (List.range (endTime - (st.timeIndex + 1)).toNat).foldl
          (fun g (k : Nat) => writeArr g (st.timeIndex + 1 + (k : Int)) newDemand) st.demandForecast,
      desiredWip := desired }

lemma range_foldl_write (f : Int → Int) (base v : Int) :
    ∀ (m : Nat) (j : Int),
    ((List.range m).foldl (fun g (k : Nat) => writeArr g (base + (k : Int)) v) f) j
      = if base ≤ j ∧ j < base + m then v else f j := by
  intro m
  induction m with
  | zero =>
    intro j
    simp only [List.range_zero, List.foldl_nil, Nat.cast_zero]
    rw [if_neg (by omega)]
  | succ m ih =>
    intro j
    rw [List.range_succ, List.foldl_append, List.foldl_cons, List.foldl_nil]
    simp only [writeArr]
    rw [ih j]
    push_cast
    split_ifs <;> first | rfl | omega

/-- Unfolding `updateDemandForecast` on a successful forecast. -/
lemma updateDemandForecast_eq (st : ForecastSt) (sv newD : Int)
    (hnew : calculateFutureDemand st sv = .ok newD) :
    updateDemandForecast st sv = .ok
      { st with
        demandForecast :=
          (List.range ((if st.timeIndex + st.shipDelay + 1 ≥ st.arrLen then st.arrLen
            else st.timeIndex + st.shipDelay + 1) - (st.timeIndex + 1)).toNat).foldl
            (fun g (k : Nat) => writeArr g (st.timeIndex + 1 + (k : Int)) newD) st.demandForecast,
        desiredWip := pyTrunc ((newD : ℚ) * (1 + st.alpha)) } := by
  simp only [updateDemandForecast, hnew]

/-- The state actually produced by `updateDemandForecast` at a concrete
input: `timeIndex = 10`, `shipDelay = 2`, actual demand 1, pre-existing
forecast 2 at slot 10 and 7 everywhere else, smoothing mode 2. -/
def c4State : ForecastSt :=
  { timeIndex := 10, shipDelay := 2, arrLen := 32, alpha := 0,
    actualizedDemand := fun _ => 1,
    demandForecast := fun i => if i = 10 then 2 else 7,
    desiredWip := 0 }

def c4Forecast (j : Int) : Int :=
  match updateDemandForecast c4State 2 with
  | .ok st => st.demandForecast j
  | .error _ => -1000

/-- Counterexample for C4 as stated: with actual demand 1 and forecast 2,
smoothing mode 2 writes `int(3/2) = 1`, not `round(3/2) = 2`; and the
propagation stops at slot `t+shipDelay` (= 12): slot `t+shipDelay+1`
(= 13) keeps its old value 7 instead of the new forecast. -/
theorem forecast_truncates_and_stops_at_shipDelay :
    c4Forecast 11 = 1 ∧ round ((1 + 2 : ℚ) / 2) = 2 ∧ (1 : Int) ≠ 2 ∧
    c4Forecast 13 = 7 ∧ c4Forecast 13 ≠ c4Forecast 11 := by
  refine ⟨by decide, ?_, by decide, by decide, by decide⟩
  have h : ((1 + 2 : ℚ) / 2) + 1 / 2 = 2 := by norm_num
  rw [round_eq, h]
  norm_num

/-- **C4 (amended).** For smoothing modes 1 and 2 (with `shipDelay ≥ 1`
and slot `t+1` inside the array), the phase succeeds; the new value is
the actual demand (mode 1) or the truncated average
`int((actual + forecast)/2)` (mode 2, truncation — not rounding); it is
written into slot `t+1` and exactly the slots
`[t+1, min(t+shipDelay+1, len)-1]` — i.e. through `t+shipDelay`, not
`t+shipDelay+1`; every other slot is unchanged. -/
theorem updateDemandForecast_spec (st : ForecastSt) (sv : Int)
    (hsv : sv = 1 ∨ sv = 2) (hd : 1 ≤ st.shipDelay) (ht : st.timeIndex + 1 < st.arrLen) :
    ∃ st2, updateDemandForecast st sv = .ok st2 ∧
      ∃ newD : Int,
        newD = (if sv = 1 then st.actualizedDemand st.timeIndex
          else pyHalfInt (st.actualizedDemand st.timeIndex + st.demandForecast st.timeIndex)) ∧
        st2.demandForecast (st.timeIndex + 1) = newD ∧
        (∀ j : Int, st.timeIndex + 1 ≤ j →
          j < min (st.timeIndex + st.shipDelay + 1) st.arrLen →
          st2.demandForecast j = newD) ∧
        (∀ j : Int, j < st.timeIndex + 1 ∨ min (st.timeIndex + st.shipDelay + 1) st.arrLen ≤ j →
          st2.demandForecast j = st.demandForecast j) := by
  have hend : (if st.timeIndex + st.shipDelay + 1 ≥ st.arrLen then st.arrLen
      else st.timeIndex + st.shipDelay + 1) = min (st.timeIndex + st.shipDelay + 1) st.arrLen := by
    rw [min_def]; split_ifs <;> omega
  have hbase : st.timeIndex + 1 ≤ min (st.timeIndex + st.shipDelay + 1) st.arrLen := by
    rw [min_def]; split_ifs <;> omega
  have hlt : st.timeIndex + 1 < min (st.timeIndex + st.shipDelay + 1) st.arrLen := by
    rw [min_def]; split_ifs <;> omega
  have hcast : (st.timeIndex + 1) +
      ((min (st.timeIndex + st.shipDelay + 1) st.arrLen - (st.timeIndex + 1)).toNat : Int)
      = min (st.timeIndex + st.shipDelay + 1) st.arrLen := by omega
  have hnew : calculateFutureDemand st sv = .ok
      (if sv = 1 then st.actualizedDemand st.timeIndex
        else pyHalfInt (st.actualizedDemand st.timeIndex + st.demandForecast st.timeIndex)) := by
    rcases hsv with rfl | rfl <;> simp [calculateFutureDemand]
  refine ⟨_, updateDemandForecast_eq st sv _ hnew, _, rfl, ?_, ?_, ?_⟩
  · dsimp only
    rw [hend, range_foldl_write]
    rw [if_pos ⟨le_rfl, by omega⟩]
  · intro j hj1 hj2
    dsimp only
    rw [hend, range_foldl_write]
    rw [if_pos ⟨hj1, by omega⟩]
  · intro j hj
    dsimp only
    rw [hend, range_foldl_write]
    rw [if_neg (by omega)]

/-- Witness for C4: the amended theorem at the concrete state, smoothing
mode 2. -/
theorem updateDemandForecast_spec_witness :
    ∃ st2, updateDemandForecast c4State 2 = .ok st2 ∧
      ∃ newD : Int,
        newD = (if (2 : Int) = 1 then c4State.actualizedDemand c4State.timeIndex
          else pyHalfInt (c4State.actualizedDemand c4State.timeIndex +
            c4State.demandForecast c4State.timeIndex)) ∧
        st2.demandForecast (c4State.timeIndex + 1) = newD ∧
        (∀ j : Int, c4State.timeIndex + 1 ≤ j →
          j < min (c4State.timeIndex + c4State.shipDelay + 1) c4State.arrLen →
          st2.demandForecast j = newD) ∧
        (∀ j : Int, j < c4State.timeIndex + 1 ∨
            min (c4State.timeIndex + c4State.shipDelay + 1) c4State.arrLen ≤ j →
          st2.demandForecast j = c4State.demandForecast j) :=
  updateDemandForecast_spec c4State 2 (Or.inr rfl) (by decide) (by decide)

/-! ### C7: the wholesaler's rolling return window (Firm.py lines 1663-1714) -/

/-- Pointwise row write on the per-period 2-supplier return array. -/
def writeRow (arr : Int → ℚ × ℚ) (i : Int) (v : ℚ × ℚ) : Int → ℚ × ℚ :=
  fun j => if j = i then v else arr j

/-- One column of the numpy slice `arr[start : start + n, c]`. -/
def sliceCol (arr : Int → ℚ × ℚ) (pick : ℚ × ℚ → ℚ) (start : Int) (n : Nat) : List ℚ :=
  (List.range n).map (fun k => pick (arr (start + (k : Int))))

/-- `Wholesaler.setReturnBySupplierForCalc` (Firm.py lines 1663-1714).
`rule` is `historicalReturnRuleOption`, `n` is `numTimePeriodsForCalc`,
`orders` is `ordersBySupplier` (rows indexed by time index), `ret` is
`returnBySupplier` and `forCalc` the current `returnBySupplierForCalc`
window (one list per supplier column).  Returns the updated
`returnBySupplier` array and the new window. -/
def setReturnBySupplierForCalc (rule : Int) (n : Nat) (orders : Int → Int × Int)
    (tIdx : Int) (ret : Int → ℚ × ℚ) (forCalc : List ℚ × List ℚ) :
    (Int → ℚ × ℚ) × (List ℚ × List ℚ) :=
  let start := tIdx - (n : Int) + 1
  if rule ≠ 3 then
    let ret := if (orders tIdx).1 = 0 then
        (if rule = 1 then writeRow ret tIdx (0, (ret tIdx).2)
         else if rule = 2 then writeRow ret tIdx (1, (ret tIdx).2) else ret)
      else ret
    let ret := if (orders tIdx).2 = 0 then
        (if rule = 1 then writeRow ret tIdx ((ret tIdx).1, 0)
         else if rule = 2 then writeRow ret tIdx ((ret tIdx).1, 1) else ret)
      else ret
    (ret, (sliceCol ret Prod.fst start n, sliceCol ret Prod.snd start n))
  else if (orders tIdx).1 ≠ 0 ∧ (orders tIdx).2 ≠ 0 then
    -- "If orders were placed to both suppliers no calculation is needed":
    -- the window is re-sliced from the raw per-period return array.
    (ret, (sliceCol ret Prod.fst start n, sliceCol ret Prod.snd start n))
  else
    let temp1 := if (orders tIdx).1 = 0 then forCalc.1
      else forCalc.1.drop 1 ++ [(ret tIdx).1]
    let temp2 := if (orders tIdx).2 = 0 then forCalc.2
      else forCalc.2.drop 1 ++ [(ret tIdx).2]
    (ret, (temp1, temp2))

/-- Raw per-period returns for the C7 scenario: supplier A's recorded
return is 0 at time index 9 (a period in which it received no order) and
2 at time index 10; every earlier period had return 1. -/
def c7Ret : Int → ℚ × ℚ :=
  fun i => if i = 9 then (0, 3) else if i = 10 then (2, 5) else (1, 1)

/-- Orders at time index 9: supplier A got no order, supplier B did. -/
def c7OrdersFreeze : Int → Int × Int := fun _ => (0, 5)

/-- Orders at time index 10: both suppliers got nonzero orders. -/
def c7OrdersBoth : Int → Int × Int := fun _ => (5, 5)

/-- The window before index 9 is processed: supplier A's column holds the
returns of the last two periods in which it received a nonzero order. -/
def c7Window : List ℚ × List ℚ := ([1, 1], [1, 3])

/-- **C7.** Under rule 3 with window length 2: processing time index 9
(supplier A ordered 0) leaves A's window column unchanged at `[1, 1]` —
the part of the claim that holds — but processing time index 10 (both
suppliers ordered) resets A's column to the raw slice `[0, 2]`, which
re-includes the return 0 recorded for the zero-order period 9, instead of
sliding the frozen window to `[1, 2]`.  This contradicts the claim,
the spec's rule-3 description and the function's own docstring ("uses the
last n timeperiods where an order was sent to that supplier"). -/
theorem returnWindow_reset_includes_zero_order_period :
    (setReturnBySupplierForCalc 3 2 c7OrdersFreeze 9 c7Ret c7Window).2.1 = [1, 1] ∧
    (setReturnBySupplierForCalc 3 2 c7OrdersBoth 10 c7Ret
      ((setReturnBySupplierForCalc 3 2 c7OrdersFreeze 9 c7Ret c7Window).2)).2.1
        = [0, 2] ∧
    ((setReturnBySupplierForCalc 3 2 c7OrdersFreeze 9 c7Ret c7Window).2.1.drop 1
        ++ [(c7Ret 10).1]) = [1, 2] ∧
    ([0, (2 : ℚ)] ≠ [1, (2 : ℚ)]) := by decide

/-! ### C8: demand shocks (Simulation.py lines 362-408, 448-498) -/

/-- `Simulation.inputShocks` (Simulation.py lines 394-408): for each
configured `(period, percent)` pair, overwrite the demand array at index
`period + historyTime` with `demandMu + int(demandMu * percent)`. -/
def inputShocks (demandMu : Int) (historyTime : Nat)
    (shocks : Option (List (Int × ℚ))) (arr : Int → Int) : Int → Int :=
  match shocks with
  | none => arr
  | some l => l.foldl
      (fun a p => writeArr a (p.1 + (historyTime : Int))
        (demandMu + pyTrunc ((demandMu : ℚ) * p.2))) arr

/-- `Simulation.createDemandArray` (Simulation.py lines 362-392): the
first `historyTime` slots hold `demandMu`, the remaining run slots hold
`max(0, int(draw))` for the period's normal sample, and finally the
configured shocks are applied. -/
def createDemandArray (demandMu : Int) (historyTime totalTime : Nat) (draws : Nat → ℚ)
    (shocks : Option (List (Int × ℚ))) : Int → Int :=
  let arr : Int → Int := fun _ => 0
  let arr := (List.range historyTime).foldl
    (fun a (i : Nat) => writeArr a (i : Int) demandMu) arr
  let arr := (List.range' historyTime (totalTime - historyTime)).foldl
    (fun a (i : Nat) => writeArr a (i : Int) (max 0 (pyTrunc (draws i)))) arr
  inputShocks demandMu historyTime shocks arr

/-- `Simulation.createDemandPO` (Simulation.py lines 448-498): one PO from
the external consumer (customer `-99`) to the retailer (firm 0) for the
demand-array value at the current time index, arriving immediately. -/
def createDemandPO (arr : Int → Int) (timeIndex timePeriod : Int) : PO :=
  (PO.init (-99) 0 (arr timeIndex) timePeriod false).updatePO none none (some timePeriod)

/-- `Simulation.actualizeDemand` + `Firm.receiveCustomerDemand` +
`Firm.actualizeDemand` (Simulation.py lines 540-565, Firm.py lines
907-927, 513-524): the demand actualized by a firm in a period is the sum
of the order amounts of the active POs naming it as supplier with
`orderTime` equal to the current period (the run-period slot of
`actualizedDemandArray` starts at 0). -/
def actualizedDemandFor (activePoList : List PO) (agentId timePeriod : Int) : Int :=
  ((activePoList.filter
    (fun po => po.supplier == agentId && po.orderTime == timePeriod)).map PO.orderAmt).sum

lemma pyTrunc_natCast (n : Nat) : pyTrunc (n : ℚ) = n := by
  rw [pyTrunc, if_pos (by positivity)]
  simp

/-- Building the demand array and then applying the shocks is the same as
building the unshocked array and applying the shocks to it. -/
lemma createDemandArray_val (demandMu : Int) (historyTime totalTime : Nat)
    (draws : Nat → ℚ) (shocks : Option (List (Int × ℚ))) :
    createDemandArray demandMu historyTime totalTime draws shocks
      = inputShocks demandMu historyTime shocks
          (createDemandArray demandMu historyTime totalTime draws none) := by
  cases shocks <;> rfl

lemma inputShocks_other (demandMu : Int) (historyTime : Nat)
    (l : List (Int × ℚ)) (arr : Int → Int) (i : Int)
    (hi : ∀ p ∈ l, i ≠ p.1 + (historyTime : Int)) :
    inputShocks demandMu historyTime (some l) arr i = arr i := by
  induction l generalizing arr with
  | nil => rfl
  | cons p rest ih =>
    have hstep : writeArr arr (p.1 + (historyTime : Int))
        (demandMu + pyTrunc ((demandMu : ℚ) * p.2)) i = arr i := by
      rw [writeArr, if_neg (hi p (List.mem_cons_self p rest))]
    calc inputShocks demandMu historyTime (some (p :: rest)) arr i
        = inputShocks demandMu historyTime (some rest)
            (writeArr arr (p.1 + (historyTime : Int))
              (demandMu + pyTrunc ((demandMu : ℚ) * p.2))) i := rfl
      _ = _ := by
          rw [ih _ (fun q hq => hi q (List.mem_cons_of_mem p hq)), hstep]

/-- **C8.** With `demandMu = 100` and the single configured shock
`(+100 % at period 5)`: for every sampled draw sequence the demand value
used for period 5 is `100 + int(100·1) = 200` (overriding the draw); no
other slot differs from the unshocked array; the demand PO created for
the retailer in period 5 carries `orderAmt = 200` from the external
customer `-99`; and when that PO is the only active PO naming the
retailer as supplier in period 5, the retailer's actualized demand for
period 5 is 200. -/
theorem shock_overrides_sampled_demand (draws : Nat → ℚ) (h T : Nat)
    (registry : List PO)
    (hreg : registry.filter
        (fun po => po.supplier == 0 && po.orderTime == 5) =
      [createDemandPO (createDemandArray 100 h T draws (some [(5, 1)])) ((h : Int) + 5) 5]) :
    createDemandArray 100 h T draws (some [(5, 1)]) ((h : Int) + 5) = 200 ∧
    (∀ i : Int, i ≠ (h : Int) + 5 →
      createDemandArray 100 h T draws (some [(5, 1)]) i
        = createDemandArray 100 h T draws none i) ∧
    (createDemandPO (createDemandArray 100 h T draws (some [(5, 1)])) ((h : Int) + 5) 5).orderAmt
        = 200 ∧
    (createDemandPO (createDemandArray 100 h T draws (some [(5, 1)])) ((h : Int) + 5) 5).customer
        = -99 ∧
    (createDemandPO (createDemandArray 100 h T draws (some [(5, 1)])) ((h : Int) + 5) 5).supplier
        = 0 ∧
    actualizedDemandFor registry 0 5 = 200 := by
  have htrunc : pyTrunc ((100 : ℚ) * 1) = 100 := by
    rw [mul_one, show (100 : ℚ) = ((100 : Nat) : ℚ) by norm_num, pyTrunc_natCast]
    norm_num
  have hbase : ∀ arr : Int → Int,
      inputShocks 100 h (some [((5 : Int), (1 : ℚ))]) arr ((h : Int) + 5) = 200 := by
    intro arr
    show writeArr arr ((5 : Int) + (h : Int)) (100 + pyTrunc ((100 : ℚ) * 1)) ((h : Int) + 5)
        = 200
    rw [writeArr]
    rw [if_pos (by omega), htrunc]
    omega
  have hval : createDemandArray 100 h T draws (some [(5, 1)]) ((h : Int) + 5) = 200 := by
    rw [createDemandArray_val]
    exact hbase _
  have hother : ∀ i : Int, i ≠ (h : Int) + 5 →
      createDemandArray 100 h T draws (some [(5, 1)]) i
        = createDemandArray 100 h T draws none i := by
    intro i hi
    rw [createDemandArray_val 100 h T draws (some [(5, 1)])]
    rw [inputShocks_other]
    intro p hp
    simp only [List.mem_singleton] at hp
    subst hp
    simp only []
    omega
  have hpo : (createDemandPO (createDemandArray 100 h T draws (some [(5, 1)]))
      ((h : Int) + 5) 5).orderAmt = 200 := by
    show (createDemandArray 100 h T draws (some [(5, 1)])) ((h : Int) + 5) = 200
    exact hval
  refine ⟨hval, hother, hpo, rfl, rfl, ?_⟩
  rw [actualizedDemandFor, hreg]
  simp only [List.map_cons, List.map_nil, List.sum_cons, List.sum_nil]
  omega

def c8Draws : Nat → ℚ := fun _ => 37

def c8DemandPO : PO :=
  createDemandPO (createDemandArray 100 10 30 c8Draws (some [(5, 1)])) 15 5

/-- Witness for C8: the theorem at `historyTime = 10`, `totalTime = 30`,
constant draws 37, with the registry containing exactly the demand PO. -/
theorem shock_overrides_sampled_demand_witness :
    createDemandArray 100 10 30 c8Draws (some [(5, 1)]) ((10 : Nat) + 5 : Int) = 200 ∧
    (∀ i : Int, i ≠ ((10 : Nat) : Int) + 5 →
      createDemandArray 100 10 30 c8Draws (some [(5, 1)]) i
        = createDemandArray 100 10 30 c8Draws none i) ∧
    (createDemandPO (createDemandArray 100 10 30 c8Draws (some [(5, 1)]))
        (((10 : Nat) : Int) + 5) 5).orderAmt = 200 ∧
    (createDemandPO (createDemandArray 100 10 30 c8Draws (some [(5, 1)]))
        (((10 : Nat) : Int) + 5) 5).customer = -99 ∧
    (createDemandPO (createDemandArray 100 10 30 c8Draws (some [(5, 1)]))
        (((10 : Nat) : Int) + 5) 5).supplier = 0 ∧
    actualizedDemandFor [c8DemandPO] 0 5 = 200 :=
  shock_overrides_sampled_demand c8Draws 10 30 [c8DemandPO] rfl

/-! ### C10: Wholesaler.setPortfolio (Firm.py lines 1649-1661) -/

/-- `Wholesaler.setPortfolio`: raises iff the sum of the *existing*
portfolio exceeds 1.01, otherwise stores the argument unchecked. -/
def setPortfolio (wholesalerProfile : List ℚ) (profile : List ℚ) : Except String (List ℚ) :=
  if wholesalerProfile.sum > 101/100 then
    .error "Portfolio sum cannot be greater than 1"
  else .ok profile

/-- **C10.** `setPortfolio` validates only the pre-call state: it raises
iff the old weights sum to more than 1.01, and otherwise stores the new
profile verbatim, whatever its entries sum to. -/
theorem setPortfolio_checks_old_profile (old p : List ℚ) :
    (old.sum ≤ 101/100 → setPortfolio old p = .ok p) ∧
    (101/100 < old.sum →
      setPortfolio old p = .error "Portfolio sum cannot be greater than 1") := by
  constructor
  · intro hle
    rw [setPortfolio, if_neg (by exact not_lt.mpr hle)]
  · intro hgt
    rw [setPortfolio, if_pos hgt]

/-- Witness for C10: storing a profile that does not sum to 1 succeeds
when the old weights are fine; a call on over-large old weights raises. -/
theorem setPortfolio_checks_old_profile_witness :
    setPortfolio [1/2, 1/2] [2, 3] = .ok [2, 3] ∧
    setPortfolio [3/4, 3/4] [1/2, 1/2] = .error "Portfolio sum cannot be greater than 1" :=
  ⟨(setPortfolio_checks_old_profile [1/2, 1/2] [2, 3]).1 (by norm_num),
   (setPortfolio_checks_old_profile [3/4, 3/4] [1/2, 1/2]).2 (by norm_num)⟩

/-! ### C9: Configs.__init__ (Configs.py lines 99-431) -/

/-- The constructor arguments of `Configs.__init__`, with the Python
defaults spelled out by the caller.  `none` models Python `None`. -/
structure ConfigArgs where
  runTime : Int
  alphaOption : String
  alphaValue : ℚ
  alphaValueList : Option (List ℚ)
  demandMu : Int
  demandStd : Int
  historyTime : Int
  numIterations : Int
  shipDelayOption : String
  shipDelayList : Option (List Int)
  shipDelayValue : Int
  shocks : Option (List (Int × ℚ))
  smoothingValue : Int
  wholesalerProfileOption : String
  wholesalerProfile : Option (List ℚ)
  covarianceMatrix : Option (List (List ℚ))
  historicalReturnRuleOption : Int
  numTimePeriodsForCalc : Int
  riskTolerance : ℚ
  acreage : Option ℚ
  miles_mexico : Option ℚ
  miles_us : Option ℚ
  border_delay : Option ℚ
  shipment_size : Option ℚ
  storage_time : Option ℚ

/-- Configs.py lines 129-159. -/
def checkAlphaOption (a : ConfigArgs) : Except String Unit :=
  if a.alphaOption = "Uniform" then
    (if a.alphaValue < 0 then .error "Alpha value cannot be less than 0" else .ok ())
  else if a.alphaOption = "Varied" then
    match a.alphaValueList with
    | none => .error "alphaValueList must be specified if alphaValueOption=Varied is chosen"
    | some l =>
      if l.length ≠ 5 then .error "An alpha value must be input for each firm"
      else if l.any (fun v => decide (v < 0)) then .error "Alpha value cannot be less than 0"
      else .ok ()
  else .error "Unknown option chosen for alphaOption"

/-- Configs.py lines 161-176: every entry must lie in `[0, 1]`. -/
def checkCovariance (a : ConfigArgs) : Except String Unit :=
  match a.covarianceMatrix with
  | none => .error "Covariance matrix not initialized"
  | some m =>
    if m.any (fun row => row.any (fun v => decide (1 < v) || decide (v < 0))) then
      .error "Invalid values for covariance matrix. Must be [0, 1]"
    else .ok ()

/-- Configs.py lines 178-187. -/
def checkDemandMu (a : ConfigArgs) : Except String Unit :=
  if a.demandMu < 0 then .error "Mu Value cannot be less than 0" else .ok ()

/-- Configs.py lines 189-198. -/
def checkDemandStd (a : ConfigArgs) : Except String Unit :=
  if a.demandStd < 0 then .error "Variance cannot be less than 0" else .ok ()

/-- Configs.py lines 200-209. -/
def checkReturnRule (a : ConfigArgs) : Except String Unit :=
  if a.historicalReturnRuleOption > 3 ∨ a.historicalReturnRuleOption < 1 then
    .error "Invalid option for historical return rule: must be 1, 2, or 3"
  else .ok ()

/-- Configs.py lines 211-220. -/
def checkHistoryTime (a : ConfigArgs) : Except String Unit :=
  if a.historyTime < 0 then .error "Historical time cannot be a value less than 0" else .ok ()

/-- Configs.py lines 222-230. -/
def checkNumIterations (a : ConfigArgs) : Except String Unit :=
  if a.numIterations ≤ 0 then .error "Number of iterations must be 1 or greater" else .ok ()

/-- Configs.py lines 232-245. -/
def checkNumTimePeriodsForCalc (a : ConfigArgs) : Except String Unit :=
  if a.numTimePeriodsForCalc < 1 then
    .error "Number of time periods for return calculation cannot be less than 1"
  else if a.numTimePeriodsForCalc > a.historyTime then
    .error "historyTime must be greater than or equal to numTimePeriodForCalc"
  else .ok ()

/-- Configs.py lines 247-257. -/
def checkRiskTolerance (a : ConfigArgs) : Except String Unit :=
  if a.riskTolerance ≤ 0 then .error "Risk tolerance value cannot be less than 0"
  else if a.riskTolerance > 1 then .error "Risk tolerance value cannot be greater than 1."
  else .ok ()

/-- Configs.py lines 259-268. -/
def checkRunTime (a : ConfigArgs) : Except String Unit :=
  if a.runTime < 0 then .error "Runtime cannot be a value less than 0" else .ok ()

/-- Configs.py lines 271-323: the optional logistics parameters warn on
`None` and raise only when present and out of range. -/
def checkOptionalNonneg (v : Option ℚ) (msg : String) : Except String Unit :=
  match v with
  | none => .ok ()
  | some x => if x < 0 then .error msg else .ok ()

def checkOptionalPos (v : Option ℚ) (msg : String) : Except String Unit :=
  match v with
  | none => .ok ()
  | some x => if x ≤ 0 then .error msg else .ok ()

/-- Configs.py lines 326-370: note the Uniform branch rejects only
`shipDelayValue > historyTime + 1`, while the Varied branch rejects
`max(shipDelayList) > historyTime`. -/
def checkShipDelay (a : ConfigArgs) : Except String Unit :=
  if a.shipDelayOption = "Uniform" then
    if a.shipDelayValue > a.historyTime + 1 then
      .error "Must have more historical time periods than shipping delay value"
    else if a.shipDelayValue < 0 then .error "Shipping delay values cannot be less than 0"
    else .ok ()
  else if a.shipDelayOption = "Varied" then
    match a.shipDelayList with
    | none => .error "shipDelayList must be specified if shipDelayOption=Varied is chosen"
    | some l =>
      if l.length ≠ 5 then .error "A ship delay value must be input for each firm"
      else if l.any (fun v => decide (v > a.historyTime)) then
        .error "Must have more historical time periods than maximum shipping delay value"
      else if l.any (fun v => decide (v < 0)) then
        .error "Shipping delay values cannot be less than 0"
      else .ok ()
  else .error "Unknown option chosen for shipDelayOption"

/-- Configs.py line 377: the default shock schedule. -/
def defaultShocks : List (Int × ℚ) := [(50, 1), (250, -(4/5))]

/-- Configs.py lines 384-397. -/
def checkShockEntries (l : List (Int × ℚ)) (runTime : Int) : Except String Unit :=
  seqE (l.foldl (fun acc p => seqE acc
      (if p.1 > runTime then .error "Cannot have shock value after simulation ends"
       else if p.1 < 0 then .error "Cannot have shock value in time period before 0"
       else .ok ())) (.ok ()))
    (if (l.length : Int) > runTime then .error "More shock periods than total time periods"
     else .ok ())

/-- Configs.py lines 372-397. -/
def checkShocks (a : ConfigArgs) : Except String Unit :=
  match a.shocks with
  | none =>
    if a.runTime < 500 then
      .error "Default runtime not chosen, therefore default shocks cannot be chosen"
    else checkShockEntries defaultShocks a.runTime
  | some l => checkShockEntries l a.runTime

/-- Configs.py lines 399-408. -/
def checkSmoothing (a : ConfigArgs) : Except String Unit :=
  if a.smoothingValue < 1 then .error "Smoothing value cannot be less than 1" else .ok ()

/-- Configs.py lines 410-423: the wholesaler weights default to
`[0.5, 0.5]` and must be two values summing to exactly 1. -/
def checkProfile (a : ConfigArgs) : Except String Unit :=
  let prof := a.wholesalerProfile.getD [1/2, 1/2]
  if prof.length ≠ 2 then .error "Length of wholesaler profile must be 2"
  else if prof.sum ≠ 1 then .error "Sum of wholesaler profile must equal 1"
  else .ok ()

/-- `Configs.__init__`: all validation performed at construction time, in
source order; the first failing check raises. -/
def configsCheck (a : ConfigArgs) : Except String Unit :=
  seqE (checkAlphaOption a) (seqE (checkCovariance a) (seqE (checkDemandMu a)
    (seqE (checkDemandStd a) (seqE (checkReturnRule a) (seqE (checkHistoryTime a)
    (seqE (checkNumIterations a) (seqE (checkNumTimePeriodsForCalc a)
    (seqE (checkRiskTolerance a) (seqE (checkRunTime a)
    (seqE (checkOptionalPos a.acreage "Acreage must be a positive number")
    (seqE (checkOptionalNonneg a.miles_mexico "Miles from Mexico must be non-negative")
    (seqE (checkOptionalNonneg a.miles_us "Miles from US border must be non-negative")
    (seqE (checkOptionalNonneg a.border_delay "Border delay must be non-negative")
    (seqE (checkOptionalPos a.shipment_size "Shipment size must be a positive number")
    (seqE (checkOptionalNonneg a.storage_time "Storage time must be non-negative")
    (seqE (checkShipDelay a) (seqE (checkShocks a)
    (seqE (checkSmoothing a) (checkProfile a)))))))))))))))))))

lemma seqE_ok {x y : Except String Unit} (h : seqE x y = .ok ()) :
    x = .ok () ∧ y = .ok () := by
  cases x with
  | error e => simp [seqE] at h
  | ok u => cases u; exact ⟨rfl, h⟩

/-- The configuration of the counterexample: everything at its default or
a plainly valid value, except `shipDelayValue = historyTime + 1 = 11`,
which exceeds the warm-up length yet passes the Uniform check
`shipDelayValue > historyTime + 1`. -/
def c9Args : ConfigArgs :=
  { runTime := 500, alphaOption := "Uniform", alphaValue := 0, alphaValueList := none,
    demandMu := 100, demandStd := 1, historyTime := 10, numIterations := 100,
    shipDelayOption := "Uniform", shipDelayList := none, shipDelayValue := 11,
    shocks := none, smoothingValue := 2, wholesalerProfileOption := "Default",
    wholesalerProfile := none, covarianceMatrix := some [[0, 0], [0, 0]],
    historicalReturnRuleOption := 3, numTimePeriodsForCalc := 5, riskTolerance := 1,
    acreage := some 500, miles_mexico := some 700, miles_us := some 1360,
    border_delay := none, shipment_size := none, storage_time := none }

lemma c9Args_check_ok : configsCheck c9Args = .ok () := by
  show checkProfile c9Args = .ok ()
  simp only [checkProfile, c9Args, Option.getD]
  norm_num

/-- Counterexample for C9 as stated: a configuration whose uniform
`shipDelayValue` (11) strictly exceeds the warm-up length
(`historyTime = 10`) is accepted by every constructor check, because the
Uniform branch only rejects `shipDelayValue > historyTime + 1`. -/
theorem configs_accepts_shipDelay_exceeding_history :
    configsCheck c9Args = .ok () ∧ c9Args.shipDelayValue > c9Args.historyTime :=
  ⟨c9Args_check_ok, by decide⟩

/-- **C9 (amended).** Construction fails whenever the two wholesaler
weights do not sum to 1 (or are not two values), whenever the covariance
matrix is missing or has an entry outside `[0, 1]` — and, for the ship
delay, under the weaker actual conditions: with the Uniform option it
fails only when `shipDelayValue > historyTime + 1` (so the boundary value
`historyTime + 1`, which exceeds the warm-up length, is accepted), and
with the Varied option when some entry exceeds `historyTime`.
Contrapositive form: a configuration that constructs successfully
satisfies all of these range conditions. -/
theorem configsCheck_ok_implies_ranges (a : ConfigArgs)
    (h : configsCheck a = .ok ()) :
    ((a.wholesalerProfile.getD [1/2, 1/2]).length = 2 ∧
      (a.wholesalerProfile.getD [1/2, 1/2]).sum = 1) ∧
    (∃ m, a.covarianceMatrix = some m ∧ ∀ row ∈ m, ∀ v ∈ row, 0 ≤ v ∧ v ≤ 1) ∧
    (a.shipDelayOption = "Uniform" → a.shipDelayValue ≤ a.historyTime + 1) ∧
    (a.shipDelayOption = "Varied" →
      ∃ l, a.shipDelayList = some l ∧ ∀ v ∈ l, v ≤ a.historyTime) := by
  rw [configsCheck] at h
  obtain ⟨halpha, h⟩ := seqE_ok h
  obtain ⟨hcov, h⟩ := seqE_ok h
  obtain ⟨hmu, h⟩ := seqE_ok h
  obtain ⟨hstd, h⟩ := seqE_ok h
  obtain ⟨hrule, h⟩ := seqE_ok h
  obtain ⟨hhist, h⟩ := seqE_ok h
  obtain ⟨hiter, h⟩ := seqE_ok h
  obtain ⟨hcalcN, h⟩ := seqE_ok h
  obtain ⟨hrisk, h⟩ := seqE_ok h
  obtain ⟨hrun, h⟩ := seqE_ok h
  obtain ⟨hacre, h⟩ := seqE_ok h
  obtain ⟨hmm, h⟩ := seqE_ok h
  obtain ⟨hmus, h⟩ := seqE_ok h
  obtain ⟨hbd, h⟩ := seqE_ok h
  obtain ⟨hss, h⟩ := seqE_ok h
  obtain ⟨hst, h⟩ := seqE_ok h
  obtain ⟨hship, h⟩ := seqE_ok h
  obtain ⟨hshock, h⟩ := seqE_ok h
  obtain ⟨hsmooth, hprof⟩ := seqE_ok h
  refine ⟨?_, ?_, ?_, ?_⟩
  · simp only [checkProfile] at hprof
    split_ifs at hprof with h1 h2
    · exact ⟨by simpa using h1, by simpa using h2⟩
  · cases hm : a.covarianceMatrix with
    | none => rw [checkCovariance, hm] at hcov; simp at hcov
    | some m =>
      rw [checkCovariance, hm] at hcov
      dsimp only at hcov
      split_ifs at hcov with hany
      refine ⟨m, rfl, ?_⟩
      intro row hrow v hv
      simp only [List.any_eq_true, Bool.or_eq_true, decide_eq_true_eq] at hany
      push_neg at hany
      have := hany row hrow v hv
      exact ⟨this.2, this.1⟩
  · intro hu
    rw [checkShipDelay, if_pos hu] at hship
    split_ifs at hship with h1 h2
    omega
  · intro hv
    rw [checkShipDelay, hv] at hship
    rw [if_neg (by decide), if_pos rfl] at hship
    cases hl : a.shipDelayList with
    | none => rw [hl] at hship; simp at hship
    | some l =>
      rw [hl] at hship
      dsimp only at hship
      split_ifs at hship with h1 h2 h3
      refine ⟨l, rfl, ?_⟩
      intro v hvmem
      simp only [List.any_eq_true, decide_eq_true_eq] at h2
      push_neg at h2
      exact le_of_not_lt (by simpa using h2 v hvmem)

/-- Witness for C9: the amended theorem applied to the accepted concrete
configuration. -/
theorem configsCheck_ok_implies_ranges_witness :
    ((c9Args.wholesalerProfile.getD [1/2, 1/2]).length = 2 ∧
      (c9Args.wholesalerProfile.getD [1/2, 1/2]).sum = 1) ∧
    (∃ m, c9Args.covarianceMatrix = some m ∧ ∀ row ∈ m, ∀ v ∈ row, 0 ≤ v ∧ v ≤ 1) ∧
    (c9Args.shipDelayOption = "Uniform" → c9Args.shipDelayValue ≤ c9Args.historyTime + 1) ∧
    (c9Args.shipDelayOption = "Varied" →
      ∃ l, c9Args.shipDelayList = some l ∧ ∀ v ∈ l, v ≤ c9Args.historyTime) :=
  configsCheck_ok_implies_ranges c9Args c9Args_check_ok

end SupplyChain
